import Mathlib

/-!
Verification of the Transactional Saga Orchestration Engine
(`src/sagas/core.py`, `src/sagas/rebalance.py`, `src/sagas/tax_loss_harvesting.py`).

The Python code is shallowly embedded: steps are records of executable
functions, the mutable `SagaContext` dict becomes an explicit record threaded
through the run, exceptions become `Except String`, and the orchestrator is a
pure function that additionally returns the ordered trace of every
`execute`/`compensate` invocation it performs (so that claims about which
steps are invoked, and in which order, can be stated).  `datetime.now()`
timestamps carried inside log entries are omitted (they are write-only
metadata); the audit-only `StepLog` fields (`reasoning_trace`,
`validation_results`, `is_pivot`) that the orchestrator never sets are
likewise omitted.
-/

/-- The enum `SagaStatus` from core.py. -/
inductive SagaStatus : Type where
  | pending
  | executing
  | success
  | failed
  | rollingBack
  | rolledBack
deriving DecidableEq, Repr

/-- The `.value` string of each `SagaStatus` enum member. -/
def SagaStatus.value : SagaStatus → String
  | .pending => "pending"
  | .executing => "executing"
  | .success => "success"
  | .failed => "failed"
  | .rollingBack => "rolling_back"
  | .rolledBack => "rolled_back"

/-- The enum `StepStatus` from core.py. -/
inductive StepStatus : Type where
  | pending
  | running
  | success
  | failed
  | compensating
  | compensated
  | skipped
deriving DecidableEq, Repr

/-- The record `StepLog` from core.py (timestamp and the audit-only fields the
orchestrator never writes are omitted). -/
structure StepLog : Type where
  step_name : String
  status : StepStatus
  message : String
  error : Option String
deriving DecidableEq, Repr

/-- The class `TransactionStep` from core.py: a named step with a pivot flag and
`execute`/`compensate` actions.  The actions act on the business part of the
context (type `α`); a raised exception is an `Except.error` carrying
`str(e)`. -/
structure TransactionStep (α : Type) : Type where
  name : String
  is_pivot : Bool
  execute : α → Except String α
  compensate : α → Except String α

/-- The dict `SagaContext` from core.py.  The orchestrator-owned keys
(`transaction_id`, `executed_steps`, `logs`, `error`) are explicit fields;
`portfolio_data` and `proposed_trades` are kept as their Python `str()`
renderings (the only way core.py consumes them is `str(...)` inside
`generate_transaction_id`); all remaining business keys live in `data`. -/
structure SagaContext (α : Type) : Type where
  transaction_id : String
  portfolio_data : String
  proposed_trades : String
  executed_steps : List String
  logs : List StepLog
  error : Option String
  data : α

/-- The record `SagaResult` from core.py. -/
structure SagaResult (α : Type) : Type where
  status : SagaStatus
  transaction_id : String
  logs : List StepLog
  context : SagaContext α
  error : Option String

/-- One observable invocation the orchestrator performs on a step:
`execCall i` is `steps[i].execute(...)`, `compCall i` is
`steps[i].compensate(...)`. -/
inductive CallEvent : Type where
  | execCall (i : Nat)
  | compCall (i : Nat)
deriving DecidableEq, Repr

/-- The `SagaOrchestrator` state: the ordered step list and the idempotency
store (`transaction_id -> SagaStatus`; most recent binding first, mirroring
Python dict assignment). -/
structure SagaOrchestrator (α : Type) : Type where
  steps : List (TransactionStep α)
  idempotency_store : List (String × SagaStatus)

/-- Lookup in the idempotency store (`dict.get`). -/
def lookupStore (store : List (String × SagaStatus)) (tid : String) : Option SagaStatus :=
  (store.find? (fun p => p.1 == tid)).map (fun p => p.2)

/-- Method `SagaOrchestrator.get_status`. -/
def SagaOrchestrator.get_status {α : Type} (o : SagaOrchestrator α) (tid : String) :
    Option SagaStatus :=
  lookupStore o.idempotency_store tid

/-- Method `SagaOrchestrator.is_duplicate`. -/
def SagaOrchestrator.is_duplicate {α : Type} (o : SagaOrchestrator α) (tid : String) : Bool :=
  (o.get_status tid).isSome

/-! ### SHA-256 (hashlib.sha256, used by generate_transaction_id) -/

/-- Truncate to a 32-bit word. -/
def w32 (x : Nat) : Nat := x % 4294967296

/-- Rotate a 32-bit word right. -/
def rotr32 (n x : Nat) : Nat := w32 ((x >>> n) ||| (x <<< (32 - n)))

/-- The 64 SHA-256 round constants. -/
def sha256K : List Nat :=
  [1116352408, 1899447441, 3049323471, 3921009573, 961987163, 1508970993,
   2453635748, 2870763221, 3624381080, 310598401, 607225278, 1426881987,
   1925078388, 2162078206, 2614888103, 3248222580, 3835390401, 4022224774,
   264347078, 604807628, 770255983, 1249150122, 1555081692, 1996064986,
   2554220882, 2821834349, 2952996808, 3210313671, 3336571891, 3584528711,
   113926993, 338241895, 666307205, 773529912, 1294757372, 1396182291,
   1695183700, 1986661051, 2177026350, 2456956037, 2730485921, 2820302411,
   3259730800, 3345764771, 3516065817, 3600352804, 4094571909, 275423344,
   430227734, 506948616, 659060556, 883997877, 958139571, 1322822218,
   1537002063, 1747873779, 1955562222, 2024104815, 2227730452, 2361852424,
   2428436474, 2756734187, 3204031479, 3329325298]

/-- The SHA-256 initial hash value. -/
def sha256H0 : List Nat :=
  [1779033703, 3144134277, 1013904242, 2773480762,
   1359893119, 2600822924, 528734635, 1541459225]

/-- Big-endian list of the low `n` bytes of `x`. -/
def beBytes (n x : Nat) : List Nat :=
  (List.range n).map (fun i => (x >>> (8 * (n - 1 - i))) % 256)

/-- SHA-256 message padding: append 0x80, zero bytes to 56 mod 64, then the
bit length as 8 big-endian bytes. -/
def sha256Pad (msg : List Nat) : List Nat :=
  let L := msg.length
  let k := (64 + 56 - (L + 1) % 64) % 64
  msg ++ [0x80] ++ List.replicate k 0 ++ beBytes 8 (8 * L)

/-- Combine big-endian byte quadruples into 32-bit words. -/
def bytesToWords : List Nat → List Nat
  | b0 :: b1 :: b2 :: b3 :: rest =>
      (((b0 * 256 + b1) * 256 + b2) * 256 + b3) :: bytesToWords rest
  | _ => []

/-- Split a word list into 16-word blocks. -/
def group16 (l : List Nat) : List (List Nat) :=
  match l with
  | [] => []
  | x :: xs => (x :: xs.take 15) :: group16 (xs.drop 15)
termination_by l.length
decreasing_by simp [List.length_drop]; omega

/-- One step of the SHA-256 message-schedule extension. -/
def scheduleStep (w : Array Nat) (t : Nat) : Array Nat :=
  let s0 := (rotr32 7 w[t - 15]!) ^^^ (rotr32 18 w[t - 15]!) ^^^ (w[t - 15]! >>> 3)
  let s1 := (rotr32 17 w[t - 2]!) ^^^ (rotr32 19 w[t - 2]!) ^^^ (w[t - 2]! >>> 10)
  w.push (w32 (w[t - 16]! + s0 + w[t - 7]! + s1))

/-- Extend 16 message words to the 64-entry schedule. -/
def sha256Extend (ws : List Nat) : List Nat :=
  ((List.range 48).foldl (fun w i => scheduleStep w (i + 16)) ws.toArray).toList

/-- One SHA-256 compression round on the 8-word working state. -/
def compressStep (st : List Nat) (kw : Nat × Nat) : List Nat :=
  match st with
  | [a, b, c, d, e, f, g, hh] =>
    let S1 := (rotr32 6 e) ^^^ (rotr32 11 e) ^^^ (rotr32 25 e)
    let ch := (e &&& f) ^^^ ((e ^^^ 0xffffffff) &&& g)
    let temp1 := w32 (hh + S1 + ch + kw.1 + kw.2)
    let S0 := (rotr32 2 a) ^^^ (rotr32 13 a) ^^^ (rotr32 22 a)
    let maj := (a &&& b) ^^^ (a &&& c) ^^^ (b &&& c)
    let temp2 := w32 (S0 + maj)
    [w32 (temp1 + temp2), a, b, c, w32 (d + temp1), e, f, g]
  | _ => st

/-- Process one 16-word block into the running hash value. -/
def sha256Compress (h : List Nat) (block : List Nat) : List Nat :=
  let w := sha256Extend block
  let st := (sha256K.zip w).foldl compressStep h
  (h.zip st).map (fun p => w32 (p.1 + p.2))

/-- Lower-case hex digit. -/
def hexChar (n : Nat) : Char :=
  if n < 10 then Char.ofNat (48 + n) else Char.ofNat (87 + n)

/-- Hex rendering (8 digits) of a 32-bit word. -/
def wordToHex (x : Nat) : String :=
  String.mk ((List.range 8).map (fun i => hexChar ((x >>> (4 * (7 - i))) % 16)))

/-- Computes `hashlib.sha256(s.encode()).hexdigest()`. -/
def sha256Hex (s : String) : String :=
  let bytes := s.toUTF8.toList.map (fun b => b.toNat)
  let blocks := group16 (bytesToWords (sha256Pad bytes))
  String.join ((blocks.foldl sha256Compress sha256H0).map wordToHex)

/-- Method `SagaOrchestrator.generate_transaction_id`: the tag `saga_` plus the first 16
hex digits of the SHA-256 of `str(portfolio_data) + str(proposed_trades)`. -/
def generate_transaction_id {α : Type} (ctx : SagaContext α) : String :=
  "saga_" ++ (sha256Hex (ctx.portfolio_data ++ ctx.proposed_trades)).take 16

/-! ### The orchestrator: forward pass, rollback walk, run -/

/-- Output of the forward execution loop: final context, per-step logs (the
final value of each in-place-replaced entry), the invocation trace, and the
index of the failing step (if any). -/
structure FwdOut (α : Type) : Type where
  ctx : SagaContext α
  logs : List StepLog
  trace : List CallEvent
  fail : Option Nat

/-- The forward `for i, step in enumerate(self.steps)` loop of
`SagaOrchestrator.run`, started at absolute index `i`: execute each step in
order, appending its name to `executed_steps` on success; on the first
failure record `str(e)` in `ctx["error"]` and stop with the failing index. -/
def runSteps {α : Type} (i : Nat) (steps : List (TransactionStep α)) (ctx : SagaContext α) :
    FwdOut α :=
  match steps with
  | [] => ⟨ctx, [], [], none⟩
  | step :: rest =>
    match step.execute ctx.data with
    | Except.ok d =>
      let ctx2 := { ctx with data := d, executed_steps := ctx.executed_steps ++ [step.name] }
      let r := runSteps (i + 1) rest ctx2
      ⟨r.ctx,
       { step_name := step.name, status := StepStatus.success,
         message := "Step completed successfully", error := none } :: r.logs,
       CallEvent.execCall i :: r.trace, r.fail⟩
    | Except.error e =>
      ⟨{ ctx with error := some e },
       [{ step_name := step.name, status := StepStatus.failed,
          message := "Step failed", error := some e }],
       [CallEvent.execCall i], some i⟩

/-- Output of the rollback walk on the business data. -/
structure RbOut (α : Type) : Type where
  data : α
  logs : List StepLog
  trace : List CallEvent

/-- The `for i in range(failed_index - 1, -1, -1)` loop of
`SagaOrchestrator._rollback`: `rollbackLoop steps j d` compensates indices
`j-1, j-2, ..., 0`, stopping (with a SKIPPED log entry) at the first pivot;
a failing `compensate` is logged FAILED and the walk continues. -/
def rollbackLoop {α : Type} (steps : List (TransactionStep α)) : Nat → α → RbOut α
  | 0, d => ⟨d, [], []⟩
  | j + 1, d =>
    match steps[j]? with
    | none => ⟨d, [], []⟩
    | some step =>
      if step.is_pivot then
        ⟨d, [{ step_name := step.name, status := StepStatus.skipped,
               message := "PIVOT TRANSACTION - Cannot compensate past this point",
               error := none }], []⟩
      else
        match step.compensate d with
        | Except.ok d2 =>
          let r := rollbackLoop steps j d2
          ⟨r.data,
           { step_name := step.name, status := StepStatus.compensated,
             message := "Compensation successful", error := none } :: r.logs,
           CallEvent.compCall j :: r.trace⟩
        | Except.error e =>
          let r := rollbackLoop steps j d
          ⟨r.data,
           { step_name := step.name, status := StepStatus.failed,
             message := "Compensation failed", error := some e } :: r.logs,
           CallEvent.compCall j :: r.trace⟩

/-- Output of `_rollback`: updated context, rollback logs, invocation trace. -/
structure RollbackOut (α : Type) : Type where
  ctx : SagaContext α
  logs : List StepLog
  trace : List CallEvent

/-- Method `SagaOrchestrator._rollback`: bracket the rollback walk with the
ROLLBACK_START / ROLLBACK_COMPLETE marker entries. -/
def rollback {α : Type} (steps : List (TransactionStep α)) (failedIdx : Nat)
    (ctx : SagaContext α) : RollbackOut α :=
  let r := rollbackLoop steps failedIdx ctx.data
  { ctx := { ctx with data := r.data },
    logs := { step_name := "ROLLBACK_START", status := StepStatus.compensating,
              message := "Starting rollback from step " ++ toString failedIdx,
              error := none }
            :: (r.logs
            ++ [{ step_name := "ROLLBACK_COMPLETE", status := StepStatus.compensated,
                  message := "Rollback completed", error := none }]),
    trace := r.trace }

/-- The transaction-id step of `run`: keep a supplied id, derive one when the
field is missing or empty. -/
def effectiveCtx {α : Type} (ctx : SagaContext α) : SagaContext α :=
  if ctx.transaction_id = "" then
    { ctx with transaction_id := generate_transaction_id ctx }
  else ctx

/-- The forward pass of a non-duplicate `run`: reset `executed_steps` and
`logs`, then execute the steps from index 0. -/
def forward {α : Type} (o : SagaOrchestrator α) (ctx0 : SagaContext α) : FwdOut α :=
  runSteps 0 o.steps { effectiveCtx ctx0 with executed_steps := [], logs := [] }

/-- Output of `run`: the `SagaResult`, the updated idempotency store, and the
ordered trace of step invocations the run performed. -/
structure RunOutput (α : Type) : Type where
  result : SagaResult α
  store : List (String × SagaStatus)
  trace : List CallEvent

/-- Method `SagaOrchestrator.run`. -/
def SagaOrchestrator.run {α : Type} (o : SagaOrchestrator α) (ctx0 : SagaContext α) :
    RunOutput α :=
  let ctx := effectiveCtx ctx0
  match o.get_status ctx.transaction_id with
  | some existing =>
    { result :=
        { status := existing, transaction_id := ctx.transaction_id,
          logs := [{ step_name := "IDEMPOTENCY_CHECK", status := StepStatus.skipped,
                     message := "Transaction " ++ ctx.transaction_id
                       ++ " already processed with status: " ++ existing.value,
                     error := none }],
          context := ctx,
          error := some ("Duplicate transaction. Previous status: " ++ existing.value) },
      store := o.idempotency_store, trace := [] }
  | none =>
    let f := forward o ctx0
    let store1 := (ctx.transaction_id, SagaStatus.executing) :: o.idempotency_store
    match f.fail with
    | none =>
      { result := { status := SagaStatus.success, transaction_id := ctx.transaction_id,
                    logs := f.logs, context := f.ctx, error := none },
        store := (ctx.transaction_id, SagaStatus.success) :: store1, trace := f.trace }
    | some k =>
      let r := rollback o.steps k f.ctx
      { result := { status := SagaStatus.rolledBack, transaction_id := ctx.transaction_id,
                    logs := f.logs ++ r.logs, context := r.ctx, error := r.ctx.error },
        store := (ctx.transaction_id, SagaStatus.rolledBack) :: store1,
        trace := f.trace ++ r.trace }

/-- Predicate `FailsAt o ctx k e`: the forward pass of `o.run ctx` fails at step index
`k` (all earlier steps succeeded) and `str(e)` is the failure message the
failing `execute` raised. -/
def FailsAt {α : Type} (o : SagaOrchestrator α) (ctx0 : SagaContext α) (k : Nat) (e : String) :
    Prop :=
  (forward o ctx0).fail = some k ∧ (forward o ctx0).ctx.error = some e

/-! ### Tax-loss-harvesting saga steps (tax_loss_harvesting.py) -/

/-- The table `FUND_FAMILY_MAPPING`, reduced to the `family` field (the only field
`is_substantially_identical` reads; `provider` is never consulted). -/
def fundFamily : String → Option String
  | "VTI" => some "total_us_stock"
  | "VTSAX" => some "total_us_stock"
  | "ITOT" => some "total_us_stock"
  | "SPTM" => some "total_us_stock"
  | "SCHB" => some "total_us_stock"
  | "SPY" => some "sp500"
  | "VOO" => some "sp500"
  | "IVV" => some "sp500"
  | "SPLG" => some "sp500"
  | "BND" => some "total_bond"
  | "AGG" => some "total_bond"
  | "SCHZ" => some "total_bond"
  | "VXUS" => some "intl_stock"
  | "IXUS" => some "intl_stock"
  | "VEU" => some "intl_stock"
  | "AAPL" => some "aapl_individual"
  | "MSFT" => some "msft_individual"
  | "GOOGL" => some "googl_individual"
  | "GOOG" => some "googl_individual"
  | "AMZN" => some "amzn_individual"
  | "NVDA" => some "nvda_individual"
  | "META" => some "meta_individual"
  | "TSLA" => some "tsla_individual"
  | "GLD" => some "gold"
  | "IAU" => some "gold"
  | "GLDM" => some "gold"
  | "VNQ" => some "reit"
  | "IYR" => some "reit"
  | "SCHH" => some "reit"
  | _ => none

/-- Function `is_substantially_identical`: same ticker, or both tickers mapped to the
same fund family. -/
def is_substantially_identical (asset1 asset2 : String) : Bool :=
  if asset1 = asset2 then true
  else
    match fundFamily asset1, fundFamily asset2 with
    | some family1, some family2 => family1 == family2
    | _, _ => false

/-- The dict view of a tax lot as consumed by `IdentifyLossesStep` and
`CheckWashSaleStep`: only `lot_id`, `asset` and `unrealized_gain_loss` are
read by the verified logic.  Python float amounts are modelled as exact
integers. -/
structure TaxOpp : Type where
  lot_id : String
  asset : String
  unrealized_gain_loss : Int
deriving DecidableEq, Repr

/-- Method `IdentifyLossesStep.execute`: filter lots losing more than the threshold,
sort ascending by `unrealized_gain_loss` (largest loss first, Python stable
sort), and total the selected losses.  This step never raises. -/
def identifyLossesExecute (min_loss_threshold : Int) (tax_lots : List TaxOpp) :
    List TaxOpp × Int :=
  let loss_opportunities :=
    tax_lots.filter (fun lot => lot.unrealized_gain_loss < -min_loss_threshold)
  let sorted := loss_opportunities.mergeSort
    (fun a b => decide (a.unrealized_gain_loss ≤ b.unrealized_gain_loss))
  (sorted, (sorted.map (fun o => o.unrealized_gain_loss)).sum)

/-- One entry of `transaction_history`.  Dates are whole days (the code only
consumes `(current_date - txn_date).days`). -/
structure Transaction : Type where
  asset : String
  action : String
  date : Int
deriving DecidableEq, Repr

/-- Python `str.upper()` as applied to the `action` strings (ASCII; the
library `String.toUpper` is not kernel-reducible, so the ASCII case map is
spelled out). -/
def asciiUpper (s : String) : String :=
  String.mk (s.data.map (fun c =>
    if 97 ≤ c.toNat ∧ c.toNat ≤ 122 then Char.ofNat (c.toNat - 32) else c))

/-- The wash-sale test `CheckWashSaleStep.execute` applies to one
(transaction, loss-asset) pair: a BUY of a substantially identical security
within 30 days (before or after) of `current_date`. -/
def washConflict (current_date : Int) (txn : Transaction) (asset : String) : Bool :=
  (current_date - txn.date).natAbs ≤ 30
    && asciiUpper txn.action == "BUY"
    && is_substantially_identical asset txn.asset

/-- Whether any transaction in the history makes harvesting `opp` a wash-sale
violation (the `violation_found` flag of the inner loop). -/
def hasWashViolation (current_date : Int) (transaction_history : List Transaction)
    (opp : TaxOpp) : Bool :=
  transaction_history.any (fun txn => washConflict current_date txn opp.asset)

/-- Method `CheckWashSaleStep.execute`: partition the opportunities into wash-sale
violations and valid ones; raise iff no valid opportunity remains.  On
success the pair is (`tlh_wash_sale_violations`, `tlh_valid_opportunities`).
The per-lot `wash_sale_violation` detail dict and `wash_sale_clear` flag the
code attaches to each entry are elided; `current_date` stands for
`datetime.now()`. -/
def checkWashSaleExecute (current_date : Int) (opportunities : List TaxOpp)
    (transaction_history : List Transaction) :
    Except String (List TaxOpp × List TaxOpp) :=
  let wash_sale_violations :=
    opportunities.filter (fun o => hasWashViolation current_date transaction_history o)
  let valid_opportunities :=
    opportunities.filter (fun o => !hasWashViolation current_date transaction_history o)
  if valid_opportunities.isEmpty then
    Except.error "No valid tax-loss harvesting opportunities after wash sale check."
  else
    Except.ok (wash_sale_violations, valid_opportunities)

/-! ### Rebalance saga: PlaceSellOrdersStep.compensate (rebalance.py) -/

/-- An executed sell / buy-back order, reduced to the fields `compensate`
copies (`asset`, `amount`); the timestamped `order_id`, `status` and
`compensation_for` bookkeeping strings are elided. -/
structure Order : Type where
  asset : String
  amount : Int
deriving DecidableEq, Repr

/-- The context keys `PlaceSellOrdersStep.compensate` touches. -/
structure RebalanceData : Type where
  executed_sells : List Order
  sell_proceeds : Int
  buyback_orders : List Order
deriving DecidableEq, Repr

/-- Method `PlaceSellOrdersStep.compensate`: emit one buy-back per executed sell
(same asset, same amount), overwrite `buyback_orders` with that list, clear
`executed_sells` and zero `sell_proceeds`. -/
def placeSellOrdersCompensate (ctx : RebalanceData) : RebalanceData :=
  let buyback_orders :=
    ctx.executed_sells.map (fun sell => { asset := sell.asset, amount := sell.amount : Order })
  { ctx with buyback_orders := buyback_orders, executed_sells := [], sell_proceeds := 0 }

/-! ### Concrete fixtures used by the witness theorems -/

/-- A step whose execute and compensate always succeed. -/
def okStep (n : String) : TransactionStep Unit :=
  { name := n, is_pivot := false,
    execute := fun d => Except.ok d, compensate := fun d => Except.ok d }

/-- A step whose execute always raises `msg`. -/
def failStep (n msg : String) : TransactionStep Unit :=
  { name := n, is_pivot := false,
    execute := fun _ => Except.error msg, compensate := fun d => Except.ok d }

/-- A pivot step whose actions always succeed. -/
def pivotStep (n : String) : TransactionStep Unit :=
  { name := n, is_pivot := true,
    execute := fun d => Except.ok d, compensate := fun d => Except.ok d }

/-- A step that executes fine but whose compensate always raises `msg`. -/
def badCompStep (n msg : String) : TransactionStep Unit :=
  { name := n, is_pivot := false,
    execute := fun d => Except.ok d, compensate := fun _ => Except.error msg }

/-- A context with a supplied transaction id and a stale `executed_steps`
left over from a previous run. -/
def ctxU : SagaContext Unit :=
  { transaction_id := "txn-1", portfolio_data := "portfolio-A",
    proposed_trades := "trades-A", executed_steps := ["stale"], logs := [],
    error := none, data := () }

/-- Scenario A of the spec: three always-succeeding steps. -/
def orchA : SagaOrchestrator Unit :=
  { steps := [okStep "Step1", okStep "Step2", okStep "Step3"], idempotency_store := [] }

/-- Scenario B of the spec: the third step fails with Insufficient funds. -/
def orchB : SagaOrchestrator Unit :=
  { steps := [okStep "Step1", okStep "Step2", failStep "Step3" "Insufficient funds",
              okStep "Step4"],
    idempotency_store := [] }

/-- Scenario C of the spec: a pivot at index 1 and a failure at index 3. -/
def orchC : SagaOrchestrator Unit :=
  { steps := [okStep "Step1", pivotStep "Step2", okStep "Step3", failStep "Step4" "late failure"],
    idempotency_store := [] }

/-- An orchestrator whose store already records txn-1 as successful. -/
def orchD : SagaOrchestrator Unit :=
  { steps := [okStep "Step1"], idempotency_store := [("txn-1", SagaStatus.success)] }

/-- A step list where rollback hits a failing compensate at index 1. -/
def orchE : SagaOrchestrator Unit :=
  { steps := [okStep "Step1", badCompStep "Step2" "compensation exploded",
              failStep "Step3" "forward failure"],
    idempotency_store := [] }

/-- A context with no transaction id, used for the deterministic-id witness. -/
def ctxP1 : SagaContext Unit :=
  { transaction_id := "", portfolio_data := "portfolio-A",
    proposed_trades := "trades-A", executed_steps := [], logs := [],
    error := none, data := () }

/-- Same portfolio and trades as `ctxP1` but a different business-data type
and different values in every other field. -/
def ctxP2 : SagaContext Bool :=
  { transaction_id := "", portfolio_data := "portfolio-A",
    proposed_trades := "trades-A", executed_steps := ["x", "y"], logs := [],
    error := some "stale error", data := true }

/-- A rebalance context holding one executed sell. -/
def rebCtx1 : RebalanceData :=
  { executed_sells := [{ asset := "AAPL", amount := 100 }], sell_proceeds := 100,
    buyback_orders := [] }

/-! ### Lemmas about the forward pass -/

theorem runSteps_fail_bound {α : Type} (steps : List (TransactionStep α)) :
    ∀ (i : Nat) (ctx : SagaContext α) (k : Nat),
      (runSteps i steps ctx).fail = some k → i ≤ k ∧ k < i + steps.length := by
  induction steps with
  | nil => intro i ctx k h; simp [runSteps] at h
  | cons step rest ih =>
    intro i ctx k h
    cases hex : step.execute ctx.data with
    | ok d =>
      simp only [runSteps, hex] at h
      have := ih (i + 1) _ k h
      simp only [List.length_cons]
      omega
    | error e =>
      simp only [runSteps, hex, Option.some.injEq] at h
      simp only [List.length_cons]
      omega

theorem runSteps_fail_trace {α : Type} (steps : List (TransactionStep α)) :
    ∀ (i : Nat) (ctx : SagaContext α) (k : Nat),
      (runSteps i steps ctx).fail = some k →
      (runSteps i steps ctx).trace = (List.range' i (k + 1 - i)).map CallEvent.execCall := by
  induction steps with
  | nil => intro i ctx k h; simp [runSteps] at h
  | cons step rest ih =>
    intro i ctx k h
    cases hex : step.execute ctx.data with
    | ok d =>
      simp only [runSteps, hex] at h ⊢
      have hb := runSteps_fail_bound rest (i + 1) _ k h
      rw [ih (i + 1) _ k h]
      have hk : k + 1 - i = (k + 1 - (i + 1)) + 1 := by omega
      rw [hk, List.range'_succ]
      simp
    | error e =>
      simp only [runSteps, hex, Option.some.injEq] at h
      subst h
      simp [runSteps, hex, List.range'_succ]

theorem runSteps_fail_executed {α : Type} (steps : List (TransactionStep α)) :
    ∀ (i : Nat) (ctx : SagaContext α) (k : Nat),
      (runSteps i steps ctx).fail = some k →
      (runSteps i steps ctx).ctx.executed_steps =
        ctx.executed_steps ++ (steps.take (k - i)).map TransactionStep.name := by
  induction steps with
  | nil => intro i ctx k h; simp [runSteps] at h
  | cons step rest ih =>
    intro i ctx k h
    cases hex : step.execute ctx.data with
    | ok d =>
      simp only [runSteps, hex] at h ⊢
      have hb := runSteps_fail_bound rest (i + 1) _ k h
      rw [ih (i + 1) _ k h]
      have hk : k - i = (k - (i + 1)) + 1 := by omega
      rw [hk]
      simp
    | error e =>
      simp only [runSteps, hex, Option.some.injEq] at h
      subst h
      simp [runSteps, hex]

theorem runSteps_none_executed {α : Type} (steps : List (TransactionStep α)) :
    ∀ (i : Nat) (ctx : SagaContext α),
      (runSteps i steps ctx).fail = none →
      (runSteps i steps ctx).ctx.executed_steps =
        ctx.executed_steps ++ steps.map TransactionStep.name := by
  induction steps with
  | nil => intro i ctx _; simp [runSteps]
  | cons step rest ih =>
    intro i ctx h
    cases hex : step.execute ctx.data with
    | ok d =>
      simp only [runSteps, hex] at h ⊢
      rw [ih (i + 1) _ h]
      simp
    | error e =>
      simp only [runSteps, hex] at h
      exact Option.noConfusion h

theorem runSteps_none_trace {α : Type} (steps : List (TransactionStep α)) :
    ∀ (i : Nat) (ctx : SagaContext α),
      (runSteps i steps ctx).fail = none →
      (runSteps i steps ctx).trace = (List.range' i steps.length).map CallEvent.execCall := by
  induction steps with
  | nil => intro i ctx _; simp [runSteps]
  | cons step rest ih =>
    intro i ctx h
    cases hex : step.execute ctx.data with
    | ok d =>
      simp only [runSteps, hex] at h ⊢
      rw [ih (i + 1) _ h]
      simp [List.range'_succ]
    | error e =>
      simp only [runSteps, hex] at h
      exact Option.noConfusion h

/-! ### Forward-pass corollaries at the top level of `run` -/

theorem forward_fail_lt {α : Type} (o : SagaOrchestrator α) (ctx0 : SagaContext α) (k : Nat)
    (h : (forward o ctx0).fail = some k) : k < o.steps.length := by
  have := runSteps_fail_bound o.steps 0 _ k h
  omega

theorem forward_fail_trace {α : Type} (o : SagaOrchestrator α) (ctx0 : SagaContext α) (k : Nat)
    (h : (forward o ctx0).fail = some k) :
    (forward o ctx0).trace = (List.range (k + 1)).map CallEvent.execCall := by
  have := runSteps_fail_trace o.steps 0 _ k h
  simp only [forward] at this ⊢
  rw [this, List.range_eq_range']
  simp

theorem forward_fail_executed {α : Type} (o : SagaOrchestrator α) (ctx0 : SagaContext α) (k : Nat)
    (h : (forward o ctx0).fail = some k) :
    (forward o ctx0).ctx.executed_steps = (o.steps.take k).map TransactionStep.name := by
  have := runSteps_fail_executed o.steps 0 _ k h
  simp only [forward] at this ⊢
  rw [this]
  simp

theorem forward_none_executed {α : Type} (o : SagaOrchestrator α) (ctx0 : SagaContext α)
    (h : (forward o ctx0).fail = none) :
    (forward o ctx0).ctx.executed_steps = o.steps.map TransactionStep.name := by
  have := runSteps_none_executed o.steps 0 _ h
  simp only [forward] at this ⊢
  rw [this]
  simp

theorem forward_none_trace {α : Type} (o : SagaOrchestrator α) (ctx0 : SagaContext α)
    (h : (forward o ctx0).fail = none) :
    (forward o ctx0).trace = (List.range o.steps.length).map CallEvent.execCall := by
  have := runSteps_none_trace o.steps 0 _ h
  simp only [forward] at this ⊢
  rw [this, List.range_eq_range']

/-! ### Lemmas about the rollback walk -/

theorem rollback_ctx_error {α : Type} (steps : List (TransactionStep α)) (k : Nat)
    (ctx : SagaContext α) : (rollback steps k ctx).ctx.error = ctx.error := rfl

theorem rollback_ctx_executed {α : Type} (steps : List (TransactionStep α)) (k : Nat)
    (ctx : SagaContext α) : (rollback steps k ctx).ctx.executed_steps = ctx.executed_steps := rfl

theorem rollbackLoop_trace_nopivot {α : Type} (steps : List (TransactionStep α)) :
    ∀ (j : Nat) (d : α), j ≤ steps.length →
      (∀ i s, i < j → steps[i]? = some s → s.is_pivot = false) →
      (rollbackLoop steps j d).trace = ((List.range j).reverse).map CallEvent.compCall := by
  intro j
  induction j with
  | zero => intro d _ _; simp [rollbackLoop]
  | succ j ih =>
    intro d hj hp
    have hjlen : j < steps.length := by omega
    have hs : steps[j]? = some steps[j] := List.getElem?_eq_getElem hjlen
    have hnp : steps[j].is_pivot = false := hp j _ (by omega) hs
    simp only [rollbackLoop, hs, hnp]
    cases hc : steps[j].compensate d with
    | ok d2 =>
      simp only []
      rw [ih d2 (by omega) (fun i t hi ht => hp i t (by omega) ht)]
      simp [List.range_succ]
    | error e =>
      simp only []
      rw [ih d (by omega) (fun i t hi ht => hp i t (by omega) ht)]
      simp [List.range_succ]

theorem rollbackLoop_pivot {α : Type} (steps : List (TransactionStep α)) (p : Nat)
    (sp : TransactionStep α) (hp : steps[p]? = some sp) (hpiv : sp.is_pivot = true) :
    ∀ (j : Nat), p < j → j ≤ steps.length →
      (∀ i s, p < i → i < j → steps[i]? = some s → s.is_pivot = false) →
      ∀ (d : α),
        (rollbackLoop steps j d).trace =
          ((List.range' (p + 1) (j - 1 - p)).reverse).map CallEvent.compCall ∧
        ∃ L, (rollbackLoop steps j d).logs =
          L ++ [{ step_name := sp.name, status := StepStatus.skipped,
                  message := "PIVOT TRANSACTION - Cannot compensate past this point",
                  error := none }] := by
  intro j
  induction j with
  | zero => intro hpj; omega
  | succ j ih =>
    intro hpj hj hnp d
    rcases Nat.lt_succ_iff_lt_or_eq.mp hpj with hplt | hpeq
    · have hjlen : j < steps.length := by omega
      have hs : steps[j]? = some steps[j] := List.getElem?_eq_getElem hjlen
      have hnpj : steps[j].is_pivot = false := hnp j _ hplt (by omega) hs
      have hrec := ih hplt (by omega) (fun i t hi hi2 ht => hnp i t hi (by omega) ht)
      have harith : j + 1 - 1 - p = (j - 1 - p) + 1 := by omega
      have hrange : List.range' (p + 1) (j + 1 - 1 - p) =
          List.range' (p + 1) (j - 1 - p) ++ [j] := by
        rw [harith, List.range'_1_concat]
        congr 2
        omega
      simp only [rollbackLoop, hs, hnpj]
      cases hc : steps[j].compensate d with
      | ok d2 =>
        obtain ⟨htr, L, hL⟩ := hrec d2
        refine ⟨?_, ?_⟩
        · simp only [htr, hrange]
          simp
        · exact ⟨{ step_name := steps[j].name, status := StepStatus.compensated,
                   message := "Compensation successful", error := none } :: L, by simp [hL]⟩
      | error e =>
        obtain ⟨htr, L, hL⟩ := hrec d
        refine ⟨?_, ?_⟩
        · simp only [htr, hrange]
          simp
        · exact ⟨{ step_name := steps[j].name, status := StepStatus.failed,
                   message := "Compensation failed", error := some e } :: L, by simp [hL]⟩
    · subst hpeq
      simp only [rollbackLoop, hp, hpiv]
      refine ⟨by simp, ⟨[], by simp⟩⟩

theorem rollbackLoop_compfail_mem {α : Type} (steps : List (TransactionStep α))
    (si : TransactionStep α) (ce : String) (i : Nat)
    (hi : steps[i]? = some si) (hce : ∀ d, si.compensate d = Except.error ce) :
    ∀ (j : Nat) (d : α), j ≤ steps.length → i < j →
      (∀ i2 s, i2 < j → steps[i2]? = some s → s.is_pivot = false) →
      ({ step_name := si.name, status := StepStatus.failed,
         message := "Compensation failed", error := some ce } : StepLog)
        ∈ (rollbackLoop steps j d).logs := by
  intro j
  induction j with
  | zero => intro d _ hij; omega
  | succ j ih =>
    intro d hj hij hnp
    have hjlen : j < steps.length := by omega
    have hs : steps[j]? = some steps[j] := List.getElem?_eq_getElem hjlen
    have hnpj : steps[j].is_pivot = false := hnp j _ (by omega) hs
    simp only [rollbackLoop, hs, hnpj]
    rcases Nat.lt_succ_iff_lt_or_eq.mp hij with hlt | heq
    · cases hc : steps[j].compensate d with
      | ok d2 =>
        simp only [Bool.false_eq_true, if_false]
        exact List.mem_cons_of_mem _ (ih d2 (by omega) hlt
          (fun i2 t h2 ht => hnp i2 t (by omega) ht))
      | error e =>
        simp only [Bool.false_eq_true, if_false]
        exact List.mem_cons_of_mem _ (ih d (by omega) hlt
          (fun i2 t h2 ht => hnp i2 t (by omega) ht))
    · subst heq
      have hsi : steps[i] = si := by
        rw [List.getElem?_eq_getElem hjlen] at hi
        exact Option.some.inj hi
      rw [hsi, hce d]
      simp

/-- Wash-sale witness history: a recent buy of VOO. -/
def washHistW : List Transaction := [{ asset := "VOO", action := "buy", date := -10 }]

/-- Wash-sale witness opportunities: SPY (same fund family as VOO, hence a
violation) and GLD (clear). -/
def washOppsW : List TaxOpp :=
  [{ lot_id := "l1", asset := "SPY", unrealized_gain_loss := -500 },
   { lot_id := "l2", asset := "GLD", unrealized_gain_loss := -300 }]

/-! ### Bridges from decidable pivot-freeness to the index form -/

theorem nopivot_below {α : Type} (steps : List (TransactionStep α)) (k : Nat)
    (h : ∀ i, i < k → (steps[i]?.all fun s => !s.is_pivot) = true) :
    ∀ i s, i < k → steps[i]? = some s → s.is_pivot = false := by
  intro i s hik hs
  have h2 := h i hik
  rw [hs] at h2
  simpa using h2

theorem nopivot_between {α : Type} (steps : List (TransactionStep α)) (p k : Nat)
    (h : ∀ i, i < k → p < i → (steps[i]?.all fun s => !s.is_pivot) = true) :
    ∀ i s, p < i → i < k → steps[i]? = some s → s.is_pivot = false := by
  intro i s hpi hik hs
  have h2 := h i hik hpi
  rw [hs] at h2
  simpa using h2

/-- The trace of `_rollback` is the trace of its walk. -/
theorem rollback_trace {α : Type} (steps : List (TransactionStep α)) (k : Nat)
    (ctx : SagaContext α) :
    (rollback steps k ctx).trace = (rollbackLoop steps k ctx.data).trace := rfl

/-! ### The claims -/

/-- C3: if the (supplied or derived) transaction id is already in the
idempotency store, `run` invokes no execute or compensate at all, returns the
previously recorded status, logs exactly one SKIPPED IDEMPOTENCY_CHECK entry,
and carries a non-null error string mentioning the duplicate. -/
theorem c3_duplicate_short_circuit {α : Type} (o : SagaOrchestrator α)
    (ctx0 : SagaContext α) (st : SagaStatus)
    (hdup : o.get_status (effectiveCtx ctx0).transaction_id = some st) :
    (o.run ctx0).trace = [] ∧
    (o.run ctx0).result.status = st ∧
    (o.run ctx0).result.logs =
      [{ step_name := "IDEMPOTENCY_CHECK", status := StepStatus.skipped,
         message := "Transaction " ++ (effectiveCtx ctx0).transaction_id
           ++ " already processed with status: " ++ st.value, error := none }] ∧
    (o.run ctx0).result.error =
      some ("Duplicate transaction. Previous status: " ++ st.value) := by
  simp [SagaOrchestrator.run, hdup]

/-- C3 witness: replaying txn-1 against a store that already records it as
successful yields the short-circuit result. -/
theorem c3_witness :
    (orchD.run ctxU).trace = [] ∧
    (orchD.run ctxU).result.status = SagaStatus.success ∧
    (orchD.run ctxU).result.logs =
      [{ step_name := "IDEMPOTENCY_CHECK", status := StepStatus.skipped,
         message := "Transaction " ++ (effectiveCtx ctxU).transaction_id
           ++ " already processed with status: " ++ SagaStatus.success.value,
         error := none }] ∧
    (orchD.run ctxU).result.error =
      some ("Duplicate transaction. Previous status: " ++ SagaStatus.success.value) :=
  c3_duplicate_short_circuit orchD ctxU SagaStatus.success (by decide)

/-- C4: when every execute succeeds on a fresh transaction id, `run` returns
SUCCESS, `executed_steps` is exactly the step-name list in order, and no
compensate is ever invoked. -/
theorem c4_all_success {α : Type} (o : SagaOrchestrator α) (ctx0 : SagaContext α)
    (hdup : o.get_status (effectiveCtx ctx0).transaction_id = none)
    (hok : (forward o ctx0).fail = none) :
    (o.run ctx0).result.status = SagaStatus.success ∧
    (o.run ctx0).result.context.executed_steps = o.steps.map TransactionStep.name ∧
    (o.run ctx0).trace = (List.range o.steps.length).map CallEvent.execCall ∧
    (∀ i, CallEvent.compCall i ∉ (o.run ctx0).trace) := by
  have hex := forward_none_executed o ctx0 hok
  have htr := forward_none_trace o ctx0 hok
  refine ⟨?_, ?_, ?_, ?_⟩
  · simp [SagaOrchestrator.run, hdup, hok]
  · simp only [SagaOrchestrator.run, hdup, hok]
    exact hex
  · simp only [SagaOrchestrator.run, hdup, hok]
    exact htr
  · intro i hmem
    simp only [SagaOrchestrator.run, hdup, hok] at hmem
    rw [htr] at hmem
    simp [List.mem_map] at hmem

/-- C4 witness: scenario A, three always-succeeding steps. -/
theorem c4_witness :
    (orchA.run ctxU).result.status = SagaStatus.success ∧
    (orchA.run ctxU).result.context.executed_steps = orchA.steps.map TransactionStep.name ∧
    (orchA.run ctxU).trace = (List.range orchA.steps.length).map CallEvent.execCall ∧
    (∀ i, CallEvent.compCall i ∉ (orchA.run ctxU).trace) :=
  c4_all_success orchA ctxU (by decide) (by decide)

/-- C5: with no supplied transaction id the generated id is the fixed tag
saga_ followed by the (truncated) SHA-256 of `portfolio_data` and
`proposed_trades`; hence any two contexts agreeing on those two fields get
the same id, whatever every other field (and the business-data type)
holds, and independently of when the call happens (the function consumes no
clock). -/
theorem c5_deterministic_transaction_id {α β : Type} (c1 : SagaContext α) (c2 : SagaContext β)
    (hp : c1.portfolio_data = c2.portfolio_data)
    (ht : c1.proposed_trades = c2.proposed_trades) :
    generate_transaction_id c1 = generate_transaction_id c2 ∧
    generate_transaction_id c1 =
      "saga_" ++ (sha256Hex (c1.portfolio_data ++ c1.proposed_trades)).take 16 := by
  constructor
  · simp only [generate_transaction_id, hp, ht]
  · rfl

/-- C5 witness: two contexts sharing only portfolio and trades (different
business-data types, different ids, stale fields) receive the same id. -/
theorem c5_witness :
    generate_transaction_id ctxP1 = generate_transaction_id ctxP2 ∧
    generate_transaction_id ctxP1 =
      "saga_" ++ (sha256Hex (ctxP1.portfolio_data ++ ctxP1.proposed_trades)).take 16 :=
  c5_deterministic_transaction_id ctxP1 ctxP2 rfl rfl

/-- C1: if step k fails while all earlier steps succeeded and no step before
k is a pivot, `run` compensates steps k-1, ..., 0 in exactly that order,
never attempts execute on any step after k, and returns ROLLED_BACK with the
failing step message as error. -/
theorem c1_failure_full_reverse_compensation {α : Type} (o : SagaOrchestrator α)
    (ctx0 : SagaContext α) (k : Nat) (e : String)
    (hdup : o.get_status (effectiveCtx ctx0).transaction_id = none)
    (hfail : FailsAt o ctx0 k e)
    (hnp : ∀ i s, i < k → o.steps[i]? = some s → s.is_pivot = false) :
    (o.run ctx0).result.status = SagaStatus.rolledBack ∧
    (o.run ctx0).result.error = some e ∧
    (o.run ctx0).trace =
      ((List.range (k + 1)).map CallEvent.execCall)
        ++ (((List.range k).reverse).map CallEvent.compCall) := by
  obtain ⟨hf, herr⟩ := hfail
  have hklen := forward_fail_lt o ctx0 k hf
  have htr := forward_fail_trace o ctx0 k hf
  have hrb := rollbackLoop_trace_nopivot o.steps k (forward o ctx0).ctx.data (by omega) hnp
  refine ⟨?_, ?_, ?_⟩
  · simp [SagaOrchestrator.run, hdup, hf]
  · simp only [SagaOrchestrator.run, hdup, hf]
    rw [rollback_ctx_error]
    exact herr
  · simp only [SagaOrchestrator.run, hdup, hf]
    rw [htr, rollback_trace, hrb]

/-- C1 witness: scenario B; step 3 of 4 fails with Insufficient funds, steps
1 and 0 are compensated in that order, step 4 is never executed. -/
theorem c1_witness :
    (orchB.run ctxU).result.status = SagaStatus.rolledBack ∧
    (orchB.run ctxU).result.error = some "Insufficient funds" ∧
    (orchB.run ctxU).trace =
      ((List.range 3).map CallEvent.execCall)
        ++ (((List.range 2).reverse).map CallEvent.compCall) :=
  c1_failure_full_reverse_compensation orchB ctxU 2 "Insufficient funds"
    (by decide) ⟨by decide, by decide⟩ (nopivot_below orchB.steps 2 (by decide))

/-- C2: if step p (p < k) is a pivot and step k fails, rollback compensates
exactly steps k-1 down to p+1, logs step p as SKIPPED with the pivot
message, and never invokes compensate at or below p. -/
theorem c2_pivot_halts_compensation {α : Type} (o : SagaOrchestrator α)
    (ctx0 : SagaContext α) (k p : Nat) (e : String) (sp : TransactionStep α)
    (hdup : o.get_status (effectiveCtx ctx0).transaction_id = none)
    (hfail : FailsAt o ctx0 k e)
    (hpk : p < k)
    (hp : o.steps[p]? = some sp) (hpiv : sp.is_pivot = true)
    (hnp : ∀ i s, p < i → i < k → o.steps[i]? = some s → s.is_pivot = false) :
    (o.run ctx0).trace =
      ((List.range (k + 1)).map CallEvent.execCall)
        ++ (((List.range' (p + 1) (k - 1 - p)).reverse).map CallEvent.compCall) ∧
    (∃ L, (o.run ctx0).result.logs =
      L ++ [{ step_name := sp.name, status := StepStatus.skipped,
              message := "PIVOT TRANSACTION - Cannot compensate past this point",
              error := none },
            { step_name := "ROLLBACK_COMPLETE", status := StepStatus.compensated,
              message := "Rollback completed", error := none }]) ∧
    (∀ i, i ≤ p → CallEvent.compCall i ∉ (o.run ctx0).trace) := by
  obtain ⟨hf, herr⟩ := hfail
  have hklen := forward_fail_lt o ctx0 k hf
  have htr := forward_fail_trace o ctx0 k hf
  obtain ⟨hrbt, L, hrbl⟩ :=
    rollbackLoop_pivot o.steps p sp hp hpiv k hpk (by omega) hnp (forward o ctx0).ctx.data
  have htrace : (o.run ctx0).trace =
      ((List.range (k + 1)).map CallEvent.execCall)
        ++ (((List.range' (p + 1) (k - 1 - p)).reverse).map CallEvent.compCall) := by
    simp only [SagaOrchestrator.run, hdup, hf]
    rw [htr, rollback_trace, hrbt]
  refine ⟨htrace, ?_, ?_⟩
  · refine ⟨(forward o ctx0).logs
      ++ ({ step_name := "ROLLBACK_START", status := StepStatus.compensating,
            message := "Starting rollback from step " ++ toString k, error := none } :: L), ?_⟩
    simp only [SagaOrchestrator.run, hdup, hf, rollback]
    rw [hrbl]
    simp
  · intro i hip hmem
    rw [htrace] at hmem
    rcases List.mem_append.mp hmem with hm | hm
    · obtain ⟨j, _, he⟩ := List.mem_map.mp hm
      exact CallEvent.noConfusion he
    · obtain ⟨j, hj, he⟩ := List.mem_map.mp hm
      rw [List.mem_reverse] at hj
      have hj2 := List.mem_range'_1.mp hj
      injection he with he2
      omega

/-- C2 witness: scenario C; with a pivot at index 1 and a failure at index 3,
only step 2 is compensated, the pivot is logged SKIPPED, steps 0..1 are
never compensated. -/
theorem c2_witness :
    (orchC.run ctxU).trace =
      ((List.range 4).map CallEvent.execCall)
        ++ (((List.range' 2 1).reverse).map CallEvent.compCall) ∧
    (∃ L, (orchC.run ctxU).result.logs =
      L ++ [{ step_name := "Step2", status := StepStatus.skipped,
              message := "PIVOT TRANSACTION - Cannot compensate past this point",
              error := none },
            { step_name := "ROLLBACK_COMPLETE", status := StepStatus.compensated,
              message := "Rollback completed", error := none }]) ∧
    (∀ i, i ≤ 1 → CallEvent.compCall i ∉ (orchC.run ctxU).trace) :=
  c2_pivot_halts_compensation orchC ctxU 3 1 "late failure" (pivotStep "Step2")
    (by decide) ⟨by decide, by decide⟩ (by omega) rfl rfl
    (nopivot_between orchC.steps 1 3 (by decide))

/-- C6: a failing compensate during rollback is logged FAILED with its error
captured, the walk still compensates every remaining earlier (non-pivot)
step, and the result is still ROLLED_BACK carrying the original forward
failure message, never a compensation error. -/
theorem c6_best_effort_rollback {α : Type} (o : SagaOrchestrator α) (ctx0 : SagaContext α)
    (k i : Nat) (e ce : String) (si : TransactionStep α)
    (hdup : o.get_status (effectiveCtx ctx0).transaction_id = none)
    (hfail : FailsAt o ctx0 k e)
    (hnp : ∀ i2 s, i2 < k → o.steps[i2]? = some s → s.is_pivot = false)
    (hik : i < k) (hi : o.steps[i]? = some si)
    (hce : ∀ d, si.compensate d = Except.error ce) :
    ({ step_name := si.name, status := StepStatus.failed,
       message := "Compensation failed", error := some ce } : StepLog)
      ∈ (o.run ctx0).result.logs ∧
    (o.run ctx0).trace =
      ((List.range (k + 1)).map CallEvent.execCall)
        ++ (((List.range k).reverse).map CallEvent.compCall) ∧
    (o.run ctx0).result.status = SagaStatus.rolledBack ∧
    (o.run ctx0).result.error = some e := by
  obtain ⟨hf, herr⟩ := hfail
  have hklen := forward_fail_lt o ctx0 k hf
  have htr := forward_fail_trace o ctx0 k hf
  have hrb := rollbackLoop_trace_nopivot o.steps k (forward o ctx0).ctx.data (by omega) hnp
  have hmem := rollbackLoop_compfail_mem o.steps si ce i hi hce k
    (forward o ctx0).ctx.data (by omega) hik hnp
  refine ⟨?_, ?_, ?_, ?_⟩
  · simp only [SagaOrchestrator.run, hdup, hf, rollback]
    simp only [List.mem_append, List.mem_cons]
    exact Or.inr (Or.inr (Or.inl hmem))
  · simp only [SagaOrchestrator.run, hdup, hf]
    rw [htr, rollback_trace, hrb]
  · simp [SagaOrchestrator.run, hdup, hf]
  · simp only [SagaOrchestrator.run, hdup, hf]
    rw [rollback_ctx_error]
    exact herr

/-- C6 witness: the compensate of step 2 in `orchE` always raises; the entry
is logged FAILED, step 1 is still compensated, and the saga error stays the
forward failure. -/
theorem c6_witness :
    ({ step_name := "Step2", status := StepStatus.failed,
       message := "Compensation failed", error := some "compensation exploded" } : StepLog)
      ∈ (orchE.run ctxU).result.logs ∧
    (orchE.run ctxU).trace =
      ((List.range 3).map CallEvent.execCall)
        ++ (((List.range 2).reverse).map CallEvent.compCall) ∧
    (orchE.run ctxU).result.status = SagaStatus.rolledBack ∧
    (orchE.run ctxU).result.error = some "forward failure" :=
  c6_best_effort_rollback orchE ctxU 2 1 "forward failure" "compensation exploded"
    (badCompStep "Step2" "compensation exploded")
    (by decide) ⟨by decide, by decide⟩ (nopivot_below orchE.steps 2 (by decide))
    (by omega) rfl (fun _ => rfl)

/-- C10: a non-duplicate run resets `executed_steps` and returns it equal to
the names of exactly the steps whose execute succeeded, in forward order;
rollback removes nothing, so a ROLLED_BACK result still lists every
successfully executed (possibly compensated) step. -/
theorem c10_executed_steps_ledger {α : Type} (o : SagaOrchestrator α) (ctx0 : SagaContext α)
    (hdup : o.get_status (effectiveCtx ctx0).transaction_id = none) :
    (o.run ctx0).result.context.executed_steps =
      (o.steps.take (((forward o ctx0).fail).getD o.steps.length)).map
        TransactionStep.name := by
  cases hf : (forward o ctx0).fail with
  | none =>
    have hex := forward_none_executed o ctx0 hf
    simp only [SagaOrchestrator.run, hdup, hf, Option.getD]
    rw [hex, List.take_length]
  | some k =>
    have hex := forward_fail_executed o ctx0 k hf
    simp only [SagaOrchestrator.run, hdup, hf, Option.getD]
    rw [rollback_ctx_executed, hex]

/-- C10 witness: the rolled-back scenario B run still lists both
successfully executed (later compensated) steps, and the stale entry from
`ctxU.executed_steps` is gone. -/
theorem c10_witness : (orchB.run ctxU).result.context.executed_steps = ["Step1", "Step2"] := by
  have h := c10_executed_steps_ledger orchB ctxU (by decide)
  rw [h]
  decide

/-- C7: `CheckWashSaleStep.execute` raises exactly when every opportunity
(or none at all) has a wash-sale conflict; otherwise it succeeds with the
violating lots and the remaining valid lots. -/
theorem c7_wash_sale_partition (current_date : Int) (opportunities : List TaxOpp)
    (transaction_history : List Transaction) :
    (checkWashSaleExecute current_date opportunities transaction_history
        = Except.error "No valid tax-loss harvesting opportunities after wash sale check."
      ↔ ∀ opp ∈ opportunities,
          hasWashViolation current_date transaction_history opp = true) ∧
    ((∃ opp ∈ opportunities,
        hasWashViolation current_date transaction_history opp = false) →
      checkWashSaleExecute current_date opportunities transaction_history =
        Except.ok
          (opportunities.filter
            (fun o => hasWashViolation current_date transaction_history o),
           opportunities.filter
            (fun o => !hasWashViolation current_date transaction_history o))) := by
  have hiff : (opportunities.filter
        (fun o => !hasWashViolation current_date transaction_history o)).isEmpty = true
      ↔ ∀ opp ∈ opportunities,
          hasWashViolation current_date transaction_history opp = true := by
    rw [List.isEmpty_iff, List.filter_eq_nil_iff]
    constructor
    · intro h opp hm
      have h2 := h opp hm
      simpa using h2
    · intro h opp hm
      simp [h opp hm]
  constructor
  · constructor
    · intro h
      rw [← hiff]
      by_contra hne
      simp only [checkWashSaleExecute] at h
      rw [if_neg hne] at h
      exact Except.noConfusion h
    · intro h
      simp only [checkWashSaleExecute]
      rw [if_pos (hiff.mpr h)]
  · rintro ⟨opp, hm, hv⟩
    simp only [checkWashSaleExecute]
    rw [if_neg]
    intro hempty
    have h2 := hiff.mp hempty opp hm
    rw [hv] at h2
    exact Bool.noConfusion h2

/-- C7 witness: with a recent VOO buy, the SPY lot is set aside as a
violation, the GLD lot remains valid, and the step succeeds. -/
theorem c7_witness :
    checkWashSaleExecute 0 washOppsW washHistW =
      Except.ok ([{ lot_id := "l1", asset := "SPY", unrealized_gain_loss := -500 }],
                 [{ lot_id := "l2", asset := "GLD", unrealized_gain_loss := -300 }]) := by
  have h := (c7_wash_sale_partition 0 washOppsW washHistW).2
    ⟨{ lot_id := "l2", asset := "GLD", unrealized_gain_loss := -300 }, by decide, by decide⟩
  rw [h]
  rfl

/-- C8: `IdentifyLossesStep.execute` selects exactly the lots strictly below
the negated threshold, orders them ascending by `unrealized_gain_loss`
(largest loss first), totals their losses, and still succeeds (with an empty
list) when no lot qualifies. -/
theorem c8_identify_losses (min_loss_threshold : Int) (tax_lots : List TaxOpp) :
    ((identifyLossesExecute min_loss_threshold tax_lots).1).Perm
      (tax_lots.filter (fun lot => lot.unrealized_gain_loss < -min_loss_threshold)) ∧
    ((identifyLossesExecute min_loss_threshold tax_lots).1).Pairwise
      (fun a b => a.unrealized_gain_loss ≤ b.unrealized_gain_loss) ∧
    (identifyLossesExecute min_loss_threshold tax_lots).2 =
      ((tax_lots.filter (fun lot => lot.unrealized_gain_loss < -min_loss_threshold)).map
        (fun o => o.unrealized_gain_loss)).sum ∧
    ((∀ lot ∈ tax_lots, ¬ lot.unrealized_gain_loss < -min_loss_threshold) →
      (identifyLossesExecute min_loss_threshold tax_lots).1 = []) := by
  have hperm := List.mergeSort_perm
    (tax_lots.filter (fun lot => lot.unrealized_gain_loss < -min_loss_threshold))
    (fun a b => decide (a.unrealized_gain_loss ≤ b.unrealized_gain_loss))
  refine ⟨hperm, ?_, ?_, ?_⟩
  · have hs := @List.sorted_mergeSort TaxOpp
      (fun a b => decide (a.unrealized_gain_loss ≤ b.unrealized_gain_loss))
      (fun a b c hab hbc => by
        simp only [decide_eq_true_iff] at *
        omega)
      (fun a b => by
        simp only [Bool.or_eq_true, decide_eq_true_iff]
        omega)
      (tax_lots.filter (fun lot => lot.unrealized_gain_loss < -min_loss_threshold))
    exact hs.imp (fun h => by simpa using h)
  · exact (hperm.map (fun o => o.unrealized_gain_loss)).sum_eq
  · intro h
    have hnil : tax_lots.filter
        (fun lot => lot.unrealized_gain_loss < -min_loss_threshold) = [] := by
      rw [List.filter_eq_nil_iff]
      intro lot hm
      simpa using h lot hm
    simp only [identifyLossesExecute, hnil, List.mergeSort_nil]

/-- C8 witness: a single gaining lot yields an empty opportunity list and
the step still succeeds. -/
theorem c8_witness :
    (identifyLossesExecute 100
      [{ lot_id := "g1", asset := "VTI", unrealized_gain_loss := 50 }]).1 = [] :=
  (c8_identify_losses 100 _).2.2.2 (by decide)

/-- C9 counterexample: after compensating one executed sell, a second
compensate call does NOT leave the context unchanged — it overwrites the
non-empty `buyback_orders` record with the empty list. -/
theorem c9_counterexample :
    placeSellOrdersCompensate (placeSellOrdersCompensate rebCtx1) ≠
      placeSellOrdersCompensate rebCtx1 := by decide

/-- C9 (amended): `PlaceSellOrdersStep.compensate` emits one buy-back order
per executed sell with the same asset and amount, clears `executed_sells`
and zeroes `sell_proceeds`; a second call therefore emits no buy-back orders
and keeps `executed_sells` empty and `sell_proceeds` zero, but it also
overwrites `buyback_orders` with the empty list, so the full context is
unchanged only when there was nothing to buy back. -/
theorem c9_compensate_spec (ctx : RebalanceData) :
    (placeSellOrdersCompensate ctx).buyback_orders =
      ctx.executed_sells.map (fun sell => { asset := sell.asset, amount := sell.amount }) ∧
    (placeSellOrdersCompensate ctx).executed_sells = [] ∧
    (placeSellOrdersCompensate ctx).sell_proceeds = 0 ∧
    placeSellOrdersCompensate (placeSellOrdersCompensate ctx) =
      { placeSellOrdersCompensate ctx with buyback_orders := [] } ∧
    (placeSellOrdersCompensate (placeSellOrdersCompensate ctx) =
        placeSellOrdersCompensate ctx ↔ ctx.executed_sells = []) := by
  refine ⟨rfl, rfl, rfl, ?_, ?_⟩
  · simp [placeSellOrdersCompensate]
  · simp only [placeSellOrdersCompensate]
    constructor
    · intro h
      have hb := congrArg RebalanceData.buyback_orders h
      simp at hb
      exact hb
    · intro h
      simp [h]
